import Mathlib

/-!
Shallow embedding of the native-artifact acquisition pipeline of the
`qhzy-sharp` plugin (source: `src/index.ts`), together with theorems that
settle the frozen claims about its specification.

The embedding models:
* `isMusl` — libc-flavor detection (three branches over the runtime report
  and the dynamic-linker binary);
* `platformArchMap` / `resolveNodeName` — the platform/arch → artifact-name
  table of `getNativeBinding`;
* `downloadLoop` / `downloadFile` — the redirect-following HTTP download
  with its write-stream file effects;
* `findNodeFileDir` — the recursive `.node` search of `tryLoadSharp`;
* `extractTar` / `moveReleaseContents` / `cleanup` — the archive installer
  over a path-set filesystem model;
* `compileSharpAndMove` / `start` — the fallback builder and the startup
  orchestration, over an environment describing the external effects.
-/

namespace QhzySharp

/-- Substring occurrence over character lists: the pattern occurs at some
position of `s` (at the very end only if the pattern is empty). -/
def containsSub (s pat : List Char) : Bool :=
  match s with
  | [] => pat.isEmpty
  | _ :: rest => pat.isPrefixOf s || containsSub rest pat

/-- String containment test, modelling JavaScript `s.includes(pat)`. -/
def strIncludes (s pat : String) : Bool :=
  containsSub s.data pat.data

lemma str_append_assoc (a b c : String) : a ++ b ++ c = a ++ (b ++ c) := by
  apply String.ext
  simp [String.data_append]

/-- The environment observed by `isMusl`: whether `process.report.getReport`
is available, the `header.glibcVersionRuntime` field of the report when it
is, and the contents of the dynamic-linker binary located via `which ldd`
(`none` models the lookup or the read throwing). -/
structure MuslEnv where
  reportAvailable : Bool
  glibcVersionRuntime : Option String
  lddContents : Option String
deriving Repr, DecidableEq

/-- Embedding of `SharpService.isMusl` (src/index.ts lines 270-282):
if the report API is unavailable, read the linker binary and test for the
`musl` marker, returning `true` when that inspection throws; otherwise
return the negation of the truthiness of `header.glibcVersionRuntime`
(in JavaScript an absent field and the empty string are both falsy). -/
def isMusl (env : MuslEnv) : Bool :=
  if !env.reportAvailable then
    match env.lddContents with
    | some contents => strIncludes contents "musl"
    | none => true
  else
    match env.glibcVersionRuntime with
    | some v => v == ""
    | none => true

/-- The claim's reading of libc detection (three-tier): glibc whenever the
report records a glibc runtime version; otherwise inspect the linker for
the musl marker; musl if the inspection fails.  Written from the claim's
words for comparison with `isMusl`. -/
def muslClaimTiering (env : MuslEnv) : Bool :=
  match env.glibcVersionRuntime with
  | some _ => false
  | none =>
    match env.lddContents with
    | some contents => strIncludes contents "musl"
    | none => true

/-- The behaviour `isMusl` actually has, stated as tiering on the report
API's availability rather than on the recorded version's absence. -/
def muslAmendedTiering (env : MuslEnv) : Bool :=
  if env.reportAvailable then
    match env.glibcVersionRuntime with
    | some v => v == ""
    | none => true
  else
    match env.lddContents with
    | some contents => strIncludes contents "musl"
    | none => true

def napiLabel : String := "napi-v9"

/-- Embedding of the `platformArchMap` nested-object lookup of
`getNativeBinding` (src/index.ts lines 177-190): `none` models the lookup
failing (the map has no entry), which the code turns into the
`Unsupported platform or architecture` error. -/
def platformArchMap (sharpV : String) (musl : Bool) (platform arch : String) :
    Option String :=
  if platform = "win32" then
    if arch = "x64" then some ("sharp-v" ++ sharpV ++ "-" ++ napiLabel ++ "-win32-x64")
    else if arch = "ia32" then some ("sharp-v" ++ sharpV ++ "-" ++ napiLabel ++ "-win32-ia32")
    else none
  else if platform = "darwin" then
    if arch = "x64" then some ("sharp-v" ++ sharpV ++ "-" ++ napiLabel ++ "-darwin-x64")
    else if arch = "arm64" then some ("sharp-v" ++ sharpV ++ "-" ++ napiLabel ++ "-darwin-arm64")
    else none
  else if platform = "linux" then
    if arch = "x64" then
      some ("sharp-v" ++ sharpV ++ "-" ++ napiLabel ++ "-linux" ++ (if musl then "musl" else "") ++ "-x64")
    else if arch = "arm64" then
      some ("sharp-v" ++ sharpV ++ "-" ++ napiLabel ++ "-linux" ++ (if musl then "musl" else "") ++ "-arm64")
    else if arch = "arm" then some ("sharp-v" ++ sharpV ++ "-" ++ napiLabel ++ "-linux-arm")
    else if arch = "s390x" then some ("sharp-v" ++ sharpV ++ "-" ++ napiLabel ++ "-linux-s390x")
    else none
  else none

/-- Artifact-name resolution step of `getNativeBinding`: either the mapped
name, or the `Unsupported platform or architecture` error the code throws. -/
def resolveNodeName (sharpV : String) (musl : Bool) (platform arch : String) :
    Except String String :=
  match platformArchMap sharpV musl platform arch with
  | some nodeName => .ok nodeName
  | none => .error ("Unsupported platform or architecture: " ++ platform ++ "-" ++ arch)

/-- The supported (os, arch) set named by the claim. -/
def supportedPair (platform arch : String) : Bool :=
  (platform = "win32" && (arch = "x64" || arch = "ia32")) ||
  (platform = "darwin" && (arch = "x64" || arch = "arm64")) ||
  (platform = "linux" && (arch = "x64" || arch = "arm64" || arch = "arm" || arch = "s390x"))

/-- The documented platform-key format: os, then a musl suffix on
linux x64/arm64 only, then the architecture. -/
def platformKey (musl : Bool) (platform arch : String) : String :=
  platform ++
    (if platform = "linux" && (arch = "x64" || arch = "arm64") && musl then "musl" else "") ++
    "-" ++ arch

/-- The documented fixed artifact-name format: version, ABI tag, platform key. -/
def docArtifactName (sharpV : String) (musl : Bool) (platform arch : String) : String :=
  "sharp-v" ++ sharpV ++ "-" ++ napiLabel ++ "-" ++ platformKey musl platform arch

lemma platformArchMap_eq_none (v : String) (m : Bool) (p a : String) :
    platformArchMap v m p a = none ↔ supportedPair p a = false := by
  unfold platformArchMap supportedPair
  split_ifs <;> simp_all

lemma platformArchMap_eq_doc (v : String) (m : Bool) (p a : String)
    (h : supportedPair p a = true) :
    platformArchMap v m p a = some (docArtifactName v m p a) := by
  simp only [supportedPair, Bool.or_eq_true, Bool.and_eq_true, decide_eq_true_eq] at h
  rcases h with ((⟨hp, ha | ha⟩ | ⟨hp, ha | ha⟩) | ⟨hp, ((ha | ha) | ha) | ha⟩) <;>
    subst hp <;> subst ha <;> cases m <;>
    simp [platformArchMap, docArtifactName, platformKey, napiLabel] <;>
    simp only [str_append_assoc] <;> congr 1

/-- C5: for every (os, arch) pair in the supported set, platform resolution
produces the documented fixed artifact-name format (with the musl branch on
linux x64/arm64), and for every pair outside the set it fails with the
`Unsupported platform or architecture` error. -/
theorem c5_platform_resolution (v : String) (m : Bool) (p a : String) :
    (supportedPair p a = true →
      resolveNodeName v m p a = .ok (docArtifactName v m p a)) ∧
    (supportedPair p a = false →
      resolveNodeName v m p a =
        .error ("Unsupported platform or architecture: " ++ p ++ "-" ++ a)) := by
  constructor
  · intro h
    unfold resolveNodeName
    rw [platformArchMap_eq_doc v m p a h]
  · intro h
    unfold resolveNodeName
    rw [(platformArchMap_eq_none v m p a).mpr h]

/-- Witness for C5 at concrete inputs: linux/x64 is supported and resolves
to the documented name; freebsd/x64 is unsupported and errors. -/
theorem c5_platform_resolution_witness :
    resolveNodeName "0.33.5" false "linux" "x64" =
      .ok (docArtifactName "0.33.5" false "linux" "x64") ∧
    resolveNodeName "0.33.5" false "freebsd" "x64" =
      .error ("Unsupported platform or architecture: " ++ "freebsd" ++ "-" ++ "x64") :=
  ⟨(c5_platform_resolution "0.33.5" false "linux" "x64").1 (by decide),
   (c5_platform_resolution "0.33.5" false "freebsd" "x64").2 (by decide)⟩

/-- C4 counterexample: an environment where the diagnostic report is
available but records no glibc runtime version, and the dynamic linker is
readable and contains no musl marker.  The claim's three-tier reading says
the detector falls back to the linker and reports glibc (not musl); the
code reports musl without ever inspecting the linker. -/
theorem c4_isMusl_counterexample :
    isMusl ⟨true, none, some "ld-linux-x86-64.so.2"⟩ = true ∧
    muslClaimTiering ⟨true, none, some "ld-linux-x86-64.so.2"⟩ = false := by
  constructor
  · rfl
  · decide

example : strIncludes "ld-musl-x86_64.so.1" "musl" = true := by decide

/-- C4 amended: the tiering is on the report API's availability, not on the
recorded version's absence.  When the report API is available the flavor is
musl iff the recorded glibc version is absent (or empty), with no linker
inspection; only when the report API is unavailable does the detector read
the dynamic linker and report musl iff it contains the marker, or musl when
that inspection fails. -/
theorem c4_isMusl_amended (env : MuslEnv) : isMusl env = muslAmendedTiering env := by
  rcases env with ⟨r, g, l⟩
  cases r <;> cases g <;> cases l <;> rfl

/-! ## Downloader (`SharpService.downloadFile`, src/index.ts lines 224-267) -/

/-- One HTTP exchange as observed by the download loop: either a response
with status, optional `Location` header and body, or the request's
`error` event firing. -/
inductive HttpEvent where
  | response (status : Nat) (location : Option String) (body : String)
  | netError (msg : String)

/-- Outcome of the recursive `download` closure inside `downloadFile`. -/
inductive DLOutcome where
  | ok (body : String)
  | redirectNoLocation
  | badStatus (code : Nat)
  | netErr (msg : String)
  | ioErr (msg : String)
  | spun
deriving Repr, DecidableEq

/-- Embedding of the recursive `download` closure (src/index.ts lines
234-264).  `server` gives the exchange observed for each URL, `resolveLoc`
models `new URL(location, url).toString()`, `writeError` models the write
stream's `error` event firing while the 200 body is piped, and `fuel`
bounds the unbounded redirect recursion of the source (`.spun` marks fuel
exhaustion; the real loop would still be re-issuing requests). -/
def downloadLoop (server : String → HttpEvent) (resolveLoc : String → String → String)
    (writeError : Option String) : Nat → String → DLOutcome
  | 0, _ => .spun
  | fuel + 1, url =>
    match server url with
    | .netError msg => .netErr msg
    | .response status location body =>
      if status = 301 ∨ status = 302 then
        match location with
        | some loc => downloadLoop server resolveLoc writeError fuel (resolveLoc loc url)
        | none => .redirectNoLocation
      else if status ≠ 200 then .badStatus status
      else
        match writeError with
        | some msg => .ioErr msg
        | none => .ok body

/-- Result of `downloadFile`: the promise's outcome together with the file
present at `savePath` afterwards (`none` = no file, `some c` = a file with
contents `c`). -/
structure DLResult where
  outcome : DLOutcome
  fileAt : Option String
deriving Repr, DecidableEq

/-- Embedding of `SharpService.downloadFile`: `fs.createWriteStream`
creates (or truncates to) an empty file at `savePath` before the first
request is issued; `fs.unlink` is called only in the write stream's and
the request's `error` handlers, not on the status-rejection paths. -/
def downloadFile (server : String → HttpEvent) (resolveLoc : String → String → String)
    (writeError : Option String) (fuel : Nat) (url : String) : DLResult :=
  match downloadLoop server resolveLoc writeError fuel url with
  | .ok body => ⟨.ok body, some body⟩
  | .netErr msg => ⟨.netErr msg, none⟩
  | .ioErr msg => ⟨.ioErr msg, none⟩
  | other => ⟨other, some ""⟩

/-- A server that always answers 404, as in the spec's mock-server test. -/
def server404 : String → HttpEvent := fun _ => .response 404 none ""

/-- A server that always reports a connection error. -/
def serverNetErr : String → HttpEvent := fun _ => .netError "ECONNRESET"

/-- A resolver standing in for `new URL(location, url)`: absolute
locations win, otherwise the location is appended to the host part. -/
def toyResolve (loc base : String) : String :=
  if loc.startsWith "http" then loc else base ++ loc

/-- C2 counterexample: against a mock server answering 404, `downloadFile`
rejects with the status-carrying error, yet an (empty) file is left at the
destination path — the write stream created it before the request and no
unlink runs on the status-rejection path.  The claim that a rejection
leaves no file at `destPath` is therefore false. -/
theorem c2_download_cleanup_counterexample :
    (downloadFile server404 toyResolve none 5 "http://registry/x.tar.gz").outcome
        = .badStatus 404 ∧
    (downloadFile server404 toyResolve none 5 "http://registry/x.tar.gz").fileAt
        = some "" := by
  constructor <;> rfl

/-- C2 amended: only the write-stream I/O-error and request network-error
rejections delete the destination file; a rejection with a non-success
terminal status (or a redirect without Location) leaves the empty file
that opening the write stream created. -/
theorem c2_download_cleanup_amended (server : String → HttpEvent)
    (resolveLoc : String → String → String) (writeError : Option String)
    (fuel : Nat) (url : String) :
    (∀ msg, (downloadFile server resolveLoc writeError fuel url).outcome = .netErr msg →
      (downloadFile server resolveLoc writeError fuel url).fileAt = none) ∧
    (∀ msg, (downloadFile server resolveLoc writeError fuel url).outcome = .ioErr msg →
      (downloadFile server resolveLoc writeError fuel url).fileAt = none) ∧
    (∀ code, (downloadFile server resolveLoc writeError fuel url).outcome = .badStatus code →
      (downloadFile server resolveLoc writeError fuel url).fileAt = some "") := by
  unfold downloadFile
  cases downloadLoop server resolveLoc writeError fuel url <;> simp

/-- Witness for C2 amended: a pure network error leaves no file, while a
404 leaves the empty file. -/
theorem c2_download_cleanup_amended_witness :
    (downloadFile serverNetErr toyResolve none 5 "http://registry/x.tar.gz").fileAt = none ∧
    (downloadFile server404 toyResolve none 5 "http://a/y.tar.gz").fileAt = some "" :=
  ⟨(c2_download_cleanup_amended serverNetErr toyResolve none 5 "http://registry/x.tar.gz").1
      "ECONNRESET" rfl,
   (c2_download_cleanup_amended server404 toyResolve none 5 "http://a/y.tar.gz").2.2
      404 rfl⟩

/-- C6: a 301/302 response with a `Location` header makes the loop re-issue
the GET against the location resolved against the current URL; a terminal
response whose status is neither a redirect nor 200 rejects with an error
carrying that status code. -/
theorem c6_redirect_following (server : String → HttpEvent)
    (resolveLoc : String → String → String) (writeError : Option String) :
    (∀ fuel url status loc body,
      server url = .response status (some loc) body →
      status = 301 ∨ status = 302 →
      downloadLoop server resolveLoc writeError (fuel + 1) url =
        downloadLoop server resolveLoc writeError fuel (resolveLoc loc url)) ∧
    (∀ fuel url status oloc body,
      server url = .response status oloc body →
      ¬(status = 301 ∨ status = 302) →
      status ≠ 200 →
      downloadLoop server resolveLoc writeError (fuel + 1) url = .badStatus status) := by
  constructor
  · intro fuel url status loc body h hs
    simp only [downloadLoop, h]
    rw [if_pos hs]
  · intro fuel url status oloc body h hs h200
    simp only [downloadLoop, h]
    rw [if_neg hs, if_pos h200]

/-- A server redirecting `http://a` to the relative location `/b`, where a
404 awaits. -/
def serverRedir : String → HttpEvent := fun url =>
  if url = "http://a" then .response 302 (some "/b") ""
  else .response 404 none ""

/-- Witness for C6: the loop follows the relative redirect of `serverRedir`
to the resolved URL, and the terminal 404 there rejects with status 404. -/
theorem c6_redirect_following_witness :
    downloadLoop serverRedir toyResolve none 5 "http://a" =
      downloadLoop serverRedir toyResolve none 4 "http://a/b" ∧
    downloadLoop serverRedir toyResolve none 4 "http://a/b" = .badStatus 404 := by
  constructor
  · have h := (c6_redirect_following serverRedir toyResolve none).1 4 "http://a" 302 "/b" ""
      (by rfl) (Or.inr rfl)
    simpa [toyResolve] using h
  · exact (c6_redirect_following serverRedir toyResolve none).2 3 "http://a/b" 404 none ""
      (by rfl) (by decide) (by decide)

/-! ## ArtifactLocator (`SharpService.tryLoadSharp`, src/index.ts lines 414-447) -/

/-- A suffix test over the underlying character lists, modelling JavaScript
`s.endsWith(pat)`. -/
def strEndsWith (s pat : String) : Bool :=
  pat.data.isSuffixOf s.data

mutual

/-- A filesystem entry as seen by the recursive search: a plain file or a
directory with its `readdirSync` listing (a forest, in listing order). -/
inductive FsTree where
  | file (name : String)
  | dir (name : String) (children : FsForest)

/-- A directory listing in `readdirSync` order. -/
inductive FsForest where
  | nil
  | cons (head : FsTree) (tail : FsForest)

end

mutual

/-- Per-entry step of the `findNodeFileDir` closure of `tryLoadSharp`:
a directory entry is recursed into; a file entry returns the current
directory when its name ends in `.node`. -/
def findTree (dirPath : List String) : FsTree → Option (List String)
  | .file name => if strEndsWith name ".node" then some dirPath else none
  | .dir name children => findForest (dirPath ++ [name]) children

/-- Loop of the `findNodeFileDir` closure over the listing of the current
directory: first successful entry wins. -/
def findForest (dirPath : List String) : FsForest → Option (List String)
  | .nil => none
  | .cons t ts =>
    match findTree dirPath t with
    | some found => some found
    | none => findForest dirPath ts

end

mutual

/-- All files under one entry in the same depth-first order that
`findTree` uses, as (containing directory, file name) pairs.  Used to
state what "first match" means without re-running the short-circuiting
search. -/
def dfTree (dirPath : List String) : FsTree → List (List String × String)
  | .file name => [(dirPath, name)]
  | .dir name children => dfForest (dirPath ++ [name]) children

/-- All files under a listing, depth-first in listing order. -/
def dfForest (dirPath : List String) : FsForest → List (List String × String)
  | .nil => []
  | .cons t ts => dfTree dirPath t ++ dfForest dirPath ts

end

/-- The `@img` root as `tryLoadSharp` observes it: `.error` models
`readdirSync` throwing on a missing or unreadable root (the surrounding
try/catch turns this into the not-found result `false`), `.ok` its
listing. -/
def tryLoadSharpSearch (root : List String) (st : Except String FsForest) :
    Option (List String) :=
  match st with
  | .error _ => none
  | .ok entries => findForest root entries

mutual

theorem findTree_eq_first (dirPath : List String) (t : FsTree) :
    findTree dirPath t =
      ((dfTree dirPath t).filter (fun e => strEndsWith e.2 ".node")).head?.map
        (fun e => e.1) := by
  cases t with
  | file name =>
    by_cases h : strEndsWith name ".node" <;> simp [findTree, dfTree, h]
  | dir name children =>
    simpa [findTree, dfTree] using findForest_eq_first (dirPath ++ [name]) children

theorem findForest_eq_first (dirPath : List String) (ts : FsForest) :
    findForest dirPath ts =
      ((dfForest dirPath ts).filter (fun e => strEndsWith e.2 ".node")).head?.map
        (fun e => e.1) := by
  cases ts with
  | nil => simp [findForest, dfForest]
  | cons t ts =>
    have ht := findTree_eq_first dirPath t
    have hts := findForest_eq_first dirPath ts
    simp only [findForest, dfForest, List.filter_append, List.head?_append]
    cases hf : findTree dirPath t with
    | some found =>
      rw [hf] at ht
      rcases Option.map_eq_some'.mp ht.symm with ⟨x, hx, hxg⟩
      rw [hx]
      simp [Option.or, hxg]
    | none =>
      rw [hf] at ht
      have hn : ((dfTree dirPath t).filter (fun e => strEndsWith e.2 ".node")).head? = none := by
        cases h' : ((dfTree dirPath t).filter (fun e => strEndsWith e.2 ".node")).head? with
        | none => rfl
        | some x => rw [h'] at ht; simp at ht
      rw [hn]
      simp [Option.or, hts]

end

/-- C3: the search returns the containing directory of the first file in
depth-first, listing-order traversal whose name ends in `.node` (none when
no such file exists), and a root that does not exist or cannot be read
yields the not-found result instead of an error. -/
theorem c3_locator_first_match (root : List String) :
    (∀ entries, tryLoadSharpSearch root (.ok entries) =
      ((dfForest root entries).filter (fun e => strEndsWith e.2 ".node")).head?.map
        (fun e => e.1)) ∧
    (∀ err : String, tryLoadSharpSearch root (.error err) = none) := by
  constructor
  · intro entries
    exact findForest_eq_first root entries
  · intro _
    rfl

example :
    tryLoadSharpSearch ["@img"]
      (.ok (.cons
        (.dir "a" (.cons (.dir "b" (.cons (.file "readme.txt") (.cons (.file "x.node") .nil))) .nil))
        (.cons (.file "y.node") .nil))) =
      some ["@img", "a", "b"] := by decide

example : tryLoadSharpSearch ["@img"] (.error "ENOENT") = none := rfl

/-! ## ArchiveInstaller (`SharpService.extractAndClean`, `moveReleaseContents`,
`cleanup`, src/index.ts lines 106-158)

The filesystem is modelled as the set of file paths and directory paths
present, each path a list of segments. -/

lemma ipo_refl (l : List String) : l.isPrefixOf l = true := by
  induction l with
  | nil => rfl
  | cons a as ih => simp [List.isPrefixOf, ih]

lemma ipo_append (l m : List String) : l.isPrefixOf (l ++ m) = true := by
  induction l with
  | nil => cases m <;> rfl
  | cons a as ih => simp [List.isPrefixOf, ih]

lemma ipo_of_append (l m r : List String) (h : (l ++ m).isPrefixOf r = true) :
    l.isPrefixOf r = true := by
  induction l generalizing r with
  | nil => cases r <;> rfl
  | cons a as ih =>
    cases r with
    | nil => simp [List.isPrefixOf] at h
    | cons b bs =>
      simp only [List.cons_append, List.isPrefixOf, Bool.and_eq_true] at h ⊢
      exact ⟨h.1, ih bs h.2⟩

lemma ipo_concat (l r : List String) (a : String) (h : l.isPrefixOf (r ++ [a]) = true) :
    l.isPrefixOf r = true ∨ l = r ++ [a] := by
  induction r generalizing l with
  | nil =>
    cases l with
    | nil => exact Or.inl rfl
    | cons x xs =>
      simp only [List.nil_append, List.isPrefixOf, Bool.and_eq_true, beq_iff_eq] at h
      cases xs with
      | nil => exact Or.inr (by simp [h.1])
      | cons y ys => simp [List.isPrefixOf] at h
  | cons b bs ih =>
    cases l with
    | nil => exact Or.inl rfl
    | cons x xs =>
      simp only [List.cons_append, List.isPrefixOf, Bool.and_eq_true, beq_iff_eq] at h
      rcases ih xs h.2 with h' | h'
      · exact Or.inl (by simp [List.isPrefixOf, h.1, h'])
      · exact Or.inr (by simp [h.1, h'])

lemma ipo_length (l m : List String) (h : l.isPrefixOf m = true) : l.length ≤ m.length := by
  induction l generalizing m with
  | nil => simp
  | cons a as ih =>
    cases m with
    | nil => simp [List.isPrefixOf] at h
    | cons b bs =>
      simp only [List.isPrefixOf, Bool.and_eq_true] at h
      simpa using ih bs h.2

lemma ipo_iff (l m : List String) : l.isPrefixOf m = true ↔ l <+: m := by
  induction l generalizing m with
  | nil => cases m <;> simp [List.isPrefixOf]
  | cons a as ih =>
    cases m with
    | nil => simp [List.isPrefixOf]
    | cons b bs => simp [List.isPrefixOf, List.cons_prefix_cons, ih]

/-- Filesystem model for the archive installer: the file paths and
directory paths currently present. -/
structure FS where
  files : List (List String)
  dirs : List (List String)
deriving Repr, DecidableEq

/-- The proper ancestor directories an archive entry's extraction creates
under the extraction root. -/
def properAncestors (p : List String) : List (List String) :=
  (List.range (p.length - 1)).map (fun i => p.take (i + 1))

/-- Embedding of the gunzip-and-untar pipe of `extractAndClean`
(src/index.ts lines 108-110): each archive entry lands under
`extractPath`, with intermediate directories created. -/
def extractTar (entries : List (List String)) (extractPath : List String) (fs : FS) : FS :=
  { files := fs.files ++ entries.map (fun e => extractPath ++ e),
    dirs := fs.dirs ++ (entries.flatMap properAncestors).map (fun d => extractPath ++ d) }

/-- The names `readdirSync` reports directly under directory `d`. -/
def childNames (d : List String) (fs : FS) : List String :=
  ((fs.files ++ fs.dirs).filterMap
    (fun p => if d.isPrefixOf p ∧ d.length < p.length then p[d.length]? else none)).dedup

/-- Effect of `fs.renameSync(src, dst)`: the subtree rooted at `src` moves
to `dst`. -/
def renameTree (src dst : List String) (fs : FS) : FS :=
  { files := fs.files.map (fun p => if src.isPrefixOf p then dst ++ p.drop src.length else p),
    dirs := fs.dirs.map (fun p => if src.isPrefixOf p then dst ++ p.drop src.length else p) }

/-- Embedding of `SharpService.moveReleaseContents` (src/index.ts lines
128-142): when `extractPath/build/Release` exists, rename each of its
entries up into `extractPath`, then `rmdirSync` the `Release` directory. -/
def moveReleaseContents (extractPath : List String) (fs : FS) : FS :=
  let releaseDir := extractPath ++ ["build", "Release"]
  if releaseDir ∈ fs.dirs ∨ releaseDir ∈ fs.files then
    let moved := (childNames releaseDir fs).foldl
      (fun acc n => renameTree (releaseDir ++ [n]) (extractPath ++ [n]) acc) fs
    { moved with dirs := moved.dirs.erase releaseDir }
  else fs

/-- Embedding of `SharpService.cleanup` (src/index.ts lines 145-158):
delete the archive file, then recursively delete its staging directory. -/
def cleanup (tarFile dir : List String) (fs : FS) : FS :=
  let fs1 : FS := { fs with files := fs.files.filter (fun p => p ≠ tarFile) }
  { files := fs1.files.filter (fun p => !dir.isPrefixOf p),
    dirs := fs1.dirs.filter (fun p => !dir.isPrefixOf p) }

/-- Embedding of `SharpService.extractAndClean` after a successful
extraction: extract all entries, normalize `build/Release`, then clean up
the archive and its staging directory (`path.dirname(tarFile)`). -/
def extractAndClean (archiveEntries : List (List String)) (tarFile extractPath : List String)
    (fs : FS) : FS :=
  cleanup tarFile tarFile.dropLast
    (moveReleaseContents extractPath (extractTar archiveEntries extractPath fs))

/-- Helper: full result of installing the synthetic single-entry archive
`build/Release/x.node` into `T` from a staging directory `S` incomparable
with `T`. -/
lemma extractAndClean_single_node (T S : List String) (fname : String)
    (h1 : S.isPrefixOf T = false) (h2 : T.isPrefixOf S = false) :
    extractAndClean [["build", "Release", "x.node"]] (S ++ [fname]) T ⟨[S ++ [fname]], [S]⟩ =
      ⟨[T ++ ["x.node"]], [T ++ ["build"]]⟩ := by
  have hTS : ∀ a : String, S.isPrefixOf (T ++ [a]) = false := by
    intro a
    cases h : S.isPrefixOf (T ++ [a]) with
    | false => rfl
    | true =>
      rcases ipo_concat S T a h with h' | h'
      · rw [h'] at h1; cases h1
      · rw [h'] at h2; simp [ipo_append] at h2
  have hTmS : ∀ m : List String, (T ++ m).isPrefixOf S = false := by
    intro m
    cases h : (T ++ m).isPrefixOf S with
    | false => rfl
    | true => rw [ipo_of_append T m S h] at h2; cases h2
  have hTmSf : ∀ m : List String, (T ++ m).isPrefixOf (S ++ [fname]) = false := by
    intro m
    cases h : (T ++ m).isPrefixOf (S ++ [fname]) with
    | false => rfl
    | true =>
      rcases ipo_concat _ _ _ (ipo_of_append T m _ h) with h' | h'
      · rw [h'] at h2; cases h2
      · rw [h'] at h1; simp [ipo_append] at h1
  have hlen : ∀ m₁ m₂ : List String, m₂.length < m₁.length →
      (T ++ m₁).isPrefixOf (T ++ m₂) = false := by
    intro m₁ m₂ hm
    cases h : (T ++ m₁).isPrefixOf (T ++ m₂) with
    | false => rfl
    | true => have := ipo_length _ _ h; simp [List.length_append] at this; omega
  have A2 : (T ++ ["build", "Release"]).isPrefixOf (T ++ ["build", "Release", "x.node"]) = true := by
    have h := ipo_append (T ++ ["build", "Release"]) ["x.node"]
    rw [List.append_assoc] at h
    exact h
  have A2' : (T ++ ["build", "Release", "x.node"]).isPrefixOf
      (T ++ ["build", "Release", "x.node"]) = true := ipo_refl _
  have A6 : (T ++ ["build", "Release", "x.node"])[T.length + 2]? = some "x.node" := by
    rw [List.getElem?_append_right (by omega)]
    simp
  have A8 : (T ++ ["build", "Release", "x.node"]).drop (T.length + 3) = [] := by
    rw [show T.length + 3 = (T ++ ["build", "Release", "x.node"]).length from by simp]
    exact List.drop_length _
  have A15 : (T ++ ["x.node"] : List String) ≠ S ++ [fname] := by
    intro h
    have hap := ipo_append S [fname]
    rw [← h] at hap
    rw [hTS "x.node"] at hap
    cases hap
  have A0 : properAncestors ["build", "Release", "x.node"] = [["build"], ["build", "Release"]] := by
    decide
  have A16 : (["x.node"] : List String).dedup = ["x.node"] := by decide
  have hSrefl : S.isPrefixOf S = true := ipo_refl S
  have toProp : ∀ {l m : List String}, l.isPrefixOf m = false → ¬ l <+: m := by
    intro l m h hp
    exact absurd ((ipo_iff l m).mpr hp) (by simp [h])
  have P1 : ∀ m : List String, ¬ (T ++ m) <+: S := fun m => toProp (hTmS m)
  have P2 : ∀ m : List String, ¬ (T ++ m) <+: (S ++ [fname]) := fun m => toProp (hTmSf m)
  have P3 : ∀ a : String, ¬ S <+: (T ++ [a]) := fun a => toProp (hTS a)
  have P4 : (T ++ ["build", "Release"]) <+: (T ++ ["build", "Release", "x.node"]) :=
    (ipo_iff _ _).mp A2
  have P5 : (T ++ ["build", "Release", "x.node"]) <+: (T ++ ["build", "Release", "x.node"]) :=
    (ipo_iff _ _).mp A2'
  have Plen : ∀ m₁ m₂ : List String, m₂.length < m₁.length → ¬ (T ++ m₁) <+: (T ++ m₂) :=
    fun m₁ m₂ hm => toProp (hlen m₁ m₂ hm)
  have PS : S <+: S := (ipo_iff _ _).mp hSrefl
  have Pne1 : ¬ (S == T ++ ["build", "Release"]) = true := by
    simp only [beq_iff_eq]
    intro h
    have hr := hTmS ["build", "Release"]
    rw [← h] at hr
    rw [hSrefl] at hr
    cases hr
  have Pne2 : ¬ (T ++ ["build"] == T ++ ["build", "Release"]) = true := by
    simp
  have PE : ([S, T ++ ["build"], T ++ ["build", "Release"]] : List (List String)).erase
      (T ++ ["build", "Release"]) = [S, T ++ ["build"]] := by
    rw [List.erase_cons_tail Pne1, List.erase_cons_tail Pne2, List.erase_cons_head]
  simp [extractAndClean, extractTar, moveReleaseContents, childNames, renameTree, cleanup,
    A0, A6, A8, A15, A16, P1, P2, P3, P4, P5, Plen, PS, PE, hTS, hTmS, hTmSf, hSrefl,
    List.append_assoc, List.length_append]

/-- C7: after installing an archive containing `build/Release/x.node` into
`targetDir` from an incomparable staging directory, `x.node` sits directly
under `targetDir`, no `targetDir/build/Release` path remains among files
or directories, and the downloaded archive file is gone. -/
theorem c7_archive_installer (T S : List String) (fname : String)
    (h1 : S.isPrefixOf T = false) (h2 : T.isPrefixOf S = false) :
    (T ++ ["x.node"]) ∈
        (extractAndClean [["build", "Release", "x.node"]] (S ++ [fname]) T
          ⟨[S ++ [fname]], [S]⟩).files ∧
    (∀ p ∈ (extractAndClean [["build", "Release", "x.node"]] (S ++ [fname]) T
          ⟨[S ++ [fname]], [S]⟩).files, ¬ (T ++ ["build", "Release"]) <+: p) ∧
    (∀ p ∈ (extractAndClean [["build", "Release", "x.node"]] (S ++ [fname]) T
          ⟨[S ++ [fname]], [S]⟩).dirs, ¬ (T ++ ["build", "Release"]) <+: p) ∧
    (S ++ [fname]) ∉
        (extractAndClean [["build", "Release", "x.node"]] (S ++ [fname]) T
          ⟨[S ++ [fname]], [S]⟩).files := by
  rw [extractAndClean_single_node T S fname h1 h2]
  refine ⟨by simp, ?_, ?_, ?_⟩
  · intro p hp
    simp only [List.mem_singleton] at hp
    subst hp
    intro hpre
    have := ipo_length _ _ ((ipo_iff _ _).mpr hpre)
    simp [List.length_append] at this
  · intro p hp
    simp only [List.mem_singleton] at hp
    subst hp
    intro hpre
    have := ipo_length _ _ ((ipo_iff _ _).mpr hpre)
    simp [List.length_append] at this
  · simp only [List.mem_singleton]
    intro h
    have hap := ipo_append S [fname]
    rw [h] at hap
    rcases ipo_concat S T "x.node" (by simpa using hap) with h' | h'
    · rw [h'] at h1; cases h1
    · rw [h'] at h2; simp [ipo_append] at h2

/-- Witness for C7 at a concrete target and staging directory. -/
theorem c7_archive_installer_witness :
    (["data", "sharp", "x.node"] : List String) ∈
        (extractAndClean [["build", "Release", "x.node"]] ["tmp", "stage", "a.tar.gz"]
          ["data", "sharp"] ⟨[["tmp", "stage", "a.tar.gz"]], [["tmp", "stage"]]⟩).files ∧
    (∀ p ∈ (extractAndClean [["build", "Release", "x.node"]] ["tmp", "stage", "a.tar.gz"]
          ["data", "sharp"] ⟨[["tmp", "stage", "a.tar.gz"]], [["tmp", "stage"]]⟩).files,
      ¬ (["data", "sharp", "build", "Release"] : List String) <+: p) ∧
    (∀ p ∈ (extractAndClean [["build", "Release", "x.node"]] ["tmp", "stage", "a.tar.gz"]
          ["data", "sharp"] ⟨[["tmp", "stage", "a.tar.gz"]], [["tmp", "stage"]]⟩).dirs,
      ¬ (["data", "sharp", "build", "Release"] : List String) <+: p) ∧
    (["tmp", "stage", "a.tar.gz"] : List String) ∉
        (extractAndClean [["build", "Release", "x.node"]] ["tmp", "stage", "a.tar.gz"]
          ["data", "sharp"] ⟨[["tmp", "stage", "a.tar.gz"]], [["tmp", "stage"]]⟩).files := by
  have h := c7_archive_installer ["data", "sharp"] ["tmp", "stage"] "a.tar.gz"
    (by decide) (by decide)
  simpa using h

/-! ## FallbackBuilder and InstallOrchestrator (`SharpService.compileSharpAndMove`
and `SharpService.start`, src/index.ts lines 66-81 and 297-365) -/

/-- Value of the service's `Sharp` member: never assigned, assigned the
literal `false` (the not-found result of `tryLoadSharp`), or assigned the
loaded module. -/
inductive SharpVal where
  | unset
  | notLoaded
  | loaded
deriving Repr, DecidableEq

/-- The canonical `@img` search root of `tryLoadSharp`:
`path.resolve(config.nodeBinaryPath, hyphen-free segments)` with the
default configuration. -/
def imgRoot : List String := ["data", "assets", "qhzy", "sharp", "@img"]

/-- Embedding of the whole of `SharpService.tryLoadSharp`: search the
`@img` root (any `readdirSync` throw is caught and yields `false`); when a
`.node` directory is found, set the global marker and `require` the
module, which may itself throw (`requireOk = false`). -/
def tryLoadSharp (root : List String) (st : Except String FsForest) (requireOk : Bool) :
    Except String SharpVal :=
  match tryLoadSharpSearch root st with
  | none => .ok .notLoaded
  | some _ => if requireOk then .ok .loaded else .error "sharp load failed"

/-- External effects of the fallback build as `compileSharpAndMove`
observes them: the `npm install` subprocess's `error` event and exit code,
what the build left in the adjacent `@img` directory (`none` = absent),
and whether the final `renameSync` into the canonical directory throws
(that throw is caught and only logged). -/
structure BuildEnv where
  spawnError : Option String
  buildExitCode : Nat
  imgProduced : Option FsForest
  renameFails : Bool

/-- Embedding of `SharpService.compileSharpAndMove` acting on the
canonical `@img` state: reject when the subprocess cannot run or exits
non-zero; when the expected `@img` directory is absent after a successful
build, log and return with the canonical state untouched; otherwise move
`@img` into the canonical directory (a swallowed rename failure also
leaves it untouched). -/
def compileSharpAndMove (env : BuildEnv) (canonical : Except String FsForest) :
    Except String (Except String FsForest) :=
  match env.spawnError with
  | some msg => .error ("cannot run npm install: " ++ msg)
  | none =>
    if env.buildExitCode ≠ 0 then .error "npm install exited nonzero"
    else
      match env.imgProduced with
      | none => .ok canonical
      | some t => if env.renameFails then .ok canonical else .ok (.ok t)

/-- The external world a `start` run interacts with. -/
structure StartEnv where
  imgState0 : Except String FsForest
  requireOk : Bool
  installExitCode : Nat
  build : BuildEnv

/-- Observable result of one `start` run: the promise outcome, the final
`Sharp` member, the canonical `@img` state afterwards, and how many
full-package installs (`fullDownloadSharp`), build subprocesses
(`compileSharpAndMove`) and prebuilt-archive downloads (`downloadFile`)
ran. -/
structure StartResult where
  outcome : Except String Unit
  sharp : SharpVal
  imgState : Except String FsForest
  pkgInstalls : Nat
  buildRuns : Nat
  archiveDownloads : Nat

/-- Embedding of `SharpService.start` (src/index.ts lines 66-81): try to
load; when nothing is found, run `fullDownloadSharp` (one network package
install) and `compileSharpAndMove`, then try to load again and assign
whatever that returns.  The prebuilt path (`getNativeBinding`, which is
where `downloadFile` lives) is not invoked — the call is commented out in
the source. -/
def start (env : StartEnv) : StartResult :=
  match tryLoadSharp imgRoot env.imgState0 env.requireOk with
  | .error e => ⟨.error e, .unset, env.imgState0, 0, 0, 0⟩
  | .ok .loaded => ⟨.ok (), .loaded, env.imgState0, 0, 0, 0⟩
  | .ok _ =>
    if env.installExitCode ≠ 0 then
      ⟨.error "npm install exited nonzero", .unset, env.imgState0, 1, 0, 0⟩
    else
      match compileSharpAndMove env.build env.imgState0 with
      | .error e => ⟨.error e, .unset, env.imgState0, 1, 1, 0⟩
      | .ok imgState1 =>
        match tryLoadSharp imgRoot imgState1 env.requireOk with
        | .error e => ⟨.error e, .unset, imgState1, 1, 1, 0⟩
        | .ok v => ⟨.ok (), v, imgState1, 1, 1, 0⟩

/-- Two consecutive `start` runs against the same canonical directory: the
second run observes the filesystem state the first run left behind. -/
def startTwice (env : StartEnv) : StartResult × StartResult :=
  let r1 := start env
  (r1, start { env with imgState0 := r1.imgState })

/-- A listing holding a single loadable module file. -/
def builtForest : FsForest := .cons (.file "sharp-linux-x64.node") .nil

/-- Run-1 environment of the C1 counterexample: nothing installed, every
step succeeds, the build produces a loadable module. -/
def envPrebuiltApplies : StartEnv :=
  { imgState0 := .error "ENOENT"
    requireOk := true
    installExitCode := 0
    build := { spawnError := none, buildExitCode := 0,
               imgProduced := some builtForest, renameFails := false } }

lemma start_of_loaded (env : StartEnv)
    (h : tryLoadSharp imgRoot env.imgState0 env.requireOk = .ok .loaded) :
    start env = ⟨.ok (), .loaded, env.imgState0, 0, 0, 0⟩ := by
  unfold start
  rw [h]

lemma start_archiveDownloads_eq_zero (env : StartEnv) : (start env).archiveDownloads = 0 := by
  unfold start
  split
  · rfl
  · rfl
  · split
    · rfl
    · split
      · rfl
      · split <;> rfl

lemma start_pkgInstalls_of_notLoaded (env : StartEnv)
    (h : tryLoadSharp imgRoot env.imgState0 env.requireOk = .ok .notLoaded) :
    (start env).pkgInstalls = 1 := by
  unfold start
  split
  · simp_all
  · simp_all
  · split
    · rfl
    · split
      · rfl
      · split <;> rfl

lemma start_buildRuns_of_notLoaded (env : StartEnv)
    (h : tryLoadSharp imgRoot env.imgState0 env.requireOk = .ok .notLoaded)
    (hi : env.installExitCode = 0) :
    (start env).buildRuns = 1 := by
  unfold start
  split
  · simp_all
  · simp_all
  · rw [if_neg (by simp [hi])]
    split
    · rfl
    · split <;> rfl

lemma start_loaded_locate (env : StartEnv) (h : (start env).sharp = .loaded) :
    tryLoadSharp imgRoot (start env).imgState env.requireOk = .ok .loaded := by
  unfold start at h ⊢
  cases hl : tryLoadSharp imgRoot env.imgState0 env.requireOk with
  | error e => simp [hl] at h
  | ok v =>
    cases v with
    | loaded => simp [hl]
    | unset =>
      by_cases hi : env.installExitCode ≠ 0
      · simp [hl, hi] at h
      · cases hc : compileSharpAndMove env.build env.imgState0 with
        | error e => simp [hl, hi, hc] at h
        | ok st1 =>
          cases hl2 : tryLoadSharp imgRoot st1 env.requireOk with
          | error e => simp [hl, hi, hc, hl2] at h
          | ok v2 =>
            simp only [hl, hi, hc, hl2, if_neg hi] at h ⊢
            simp at h ⊢
            rw [hl2, h]
    | notLoaded =>
      by_cases hi : env.installExitCode ≠ 0
      · simp [hl, hi] at h
      · cases hc : compileSharpAndMove env.build env.imgState0 with
        | error e => simp [hl, hi, hc] at h
        | ok st1 =>
          cases hl2 : tryLoadSharp imgRoot st1 env.requireOk with
          | error e => simp [hl, hi, hc, hl2] at h
          | ok v2 =>
            simp only [hl, hi, hc, hl2, if_neg hi] at h ⊢
            simp at h ⊢
            rw [hl2, h]

/-- C1 counterexample: with nothing installed and every step succeeding on
a platform for which a prebuilt archive applies (linux/x64 is in the
supported set), `start` performs the source build and never invokes the
prebuilt Downloader/ArchiveInstaller path — `getNativeBinding` is not
called from `start`, its invocation being commented out. -/
theorem c1_orchestration_counterexample :
    supportedPair "linux" "x64" = true ∧
    tryLoadSharp imgRoot envPrebuiltApplies.imgState0 envPrebuiltApplies.requireOk
      = .ok .notLoaded ∧
    (start envPrebuiltApplies).archiveDownloads = 0 ∧
    (start envPrebuiltApplies).buildRuns = 1 ∧
    (start envPrebuiltApplies).outcome = .ok () :=
  ⟨by decide, rfl, rfl, rfl, rfl⟩

/-- C1 amended: in the startup sequence, whenever the locator finds no
installed module, the orchestrator goes straight to the source-build
fallback (the full-package install, then the build subprocess when that
install succeeds) and never attempts the prebuilt download path, whether
or not a prebuilt archive applies. -/
theorem c1_orchestration_amended (env : StartEnv) :
    (start env).archiveDownloads = 0 ∧
    (tryLoadSharp imgRoot env.imgState0 env.requireOk = .ok .notLoaded →
      (start env).pkgInstalls = 1) ∧
    (tryLoadSharp imgRoot env.imgState0 env.requireOk = .ok .notLoaded →
      env.installExitCode = 0 → (start env).buildRuns = 1) :=
  ⟨start_archiveDownloads_eq_zero env,
   fun h => start_pkgInstalls_of_notLoaded env h,
   fun h hi => start_buildRuns_of_notLoaded env h hi⟩

/-- Witness for C1 amended at the concrete counterexample environment. -/
theorem c1_orchestration_amended_witness :
    (start envPrebuiltApplies).archiveDownloads = 0 ∧
    (start envPrebuiltApplies).pkgInstalls = 1 ∧
    (start envPrebuiltApplies).buildRuns = 1 :=
  ⟨(c1_orchestration_amended envPrebuiltApplies).1,
   (c1_orchestration_amended envPrebuiltApplies).2.1 rfl,
   (c1_orchestration_amended envPrebuiltApplies).2.2 rfl rfl⟩

/-- Environment in which the build reports success but leaves no `@img`
directory behind: `start` completes, yet nothing is installed. -/
def envSilentBuild : StartEnv :=
  { imgState0 := .error "ENOENT"
    requireOk := true
    installExitCode := 0
    build := { spawnError := none, buildExitCode := 0,
               imgProduced := none, renameFails := false } }

/-- C8 counterexample: a first run that completes successfully (its
promise resolves) but installs nothing — the build exits 0 with no `@img`
produced — leaves the canonical directory empty, so the second run
downloads again: two package downloads in total, refuting "exactly one
network download total". -/
theorem c8_idempotence_counterexample :
    (startTwice envSilentBuild).1.outcome = .ok () ∧
    (startTwice envSilentBuild).1.pkgInstalls + (startTwice envSilentBuild).2.pkgInstalls
      = 2 :=
  ⟨rfl, rfl⟩

/-- C8 amended: when the first run ends with the module actually loaded,
the second run's locate finds the installed module and goes straight to
loading — no download, no build — so a first run that had to install
yields exactly one network download in total. -/
theorem c8_idempotence_amended (env : StartEnv) (h : (start env).sharp = .loaded) :
    (startTwice env).2.pkgInstalls = 0 ∧
    (startTwice env).2.buildRuns = 0 ∧
    (startTwice env).2.sharp = .loaded ∧
    (tryLoadSharp imgRoot env.imgState0 env.requireOk = .ok .notLoaded →
      (startTwice env).1.pkgInstalls + (startTwice env).2.pkgInstalls = 1) := by
  have key := start_loaded_locate env h
  have r2 : start { env with imgState0 := (start env).imgState } =
      ⟨.ok (), .loaded, (start env).imgState, 0, 0, 0⟩ :=
    start_of_loaded _ key
  have h2 : (startTwice env).2 = ⟨.ok (), .loaded, (start env).imgState, 0, 0, 0⟩ := r2
  refine ⟨by rw [h2], by rw [h2], by rw [h2], ?_⟩
  intro hnl
  have h1 : (startTwice env).1.pkgInstalls = 1 := start_pkgInstalls_of_notLoaded env hnl
  rw [h1, h2]
  simp

/-- Witness for C8 amended: with a working build environment the first run
installs and loads, and the second run performs no further download. -/
theorem c8_idempotence_amended_witness :
    (startTwice envPrebuiltApplies).2.pkgInstalls = 0 ∧
    (startTwice envPrebuiltApplies).2.buildRuns = 0 ∧
    (startTwice envPrebuiltApplies).2.sharp = .loaded ∧
    (startTwice envPrebuiltApplies).1.pkgInstalls +
      (startTwice envPrebuiltApplies).2.pkgInstalls = 1 := by
  have h := c8_idempotence_amended envPrebuiltApplies rfl
  exact ⟨h.1, h.2.1, h.2.2.1, h.2.2.2 rfl⟩

/-- C9: when the build subprocess runs and exits 0 but no `@img` directory
exists afterwards, `compileSharpAndMove` returns successfully with the
canonical state untouched — no relocation happens. -/
theorem c9_absent_img_nonfatal (env : BuildEnv) (canonical : Except String FsForest)
    (h1 : env.spawnError = none) (h2 : env.buildExitCode = 0)
    (h3 : env.imgProduced = none) :
    compileSharpAndMove env canonical = .ok canonical := by
  unfold compileSharpAndMove
  rw [h1, h3]
  simp [h2]

/-- A build environment that exits 0 without producing `@img`. -/
def silentBuildEnv : BuildEnv :=
  { spawnError := none, buildExitCode := 0, imgProduced := none, renameFails := false }

/-- Witness for C9 on a concrete empty canonical directory. -/
theorem c9_absent_img_nonfatal_witness :
    compileSharpAndMove silentBuildEnv (.error "ENOENT") = .ok (.error "ENOENT") :=
  c9_absent_img_nonfatal silentBuildEnv (.error "ENOENT") rfl rfl rfl

/-- C10: when the locator finds nothing, the install and build succeed,
and still no `.node` file is discoverable afterwards, `start` completes
without rejecting and assigns the literal `false` to the exposed Sharp
capability. -/
theorem c10_silent_unusable_success (env : StartEnv)
    (h1 : tryLoadSharpSearch imgRoot env.imgState0 = none)
    (h2 : env.installExitCode = 0)
    (h3 : env.build.spawnError = none)
    (h4 : env.build.buildExitCode = 0)
    (h5 : ∀ t, env.build.imgProduced = some t → findForest imgRoot t = none) :
    (start env).outcome = .ok () ∧ (start env).sharp = .notLoaded := by
  have hl : tryLoadSharp imgRoot env.imgState0 env.requireOk = .ok .notLoaded := by
    unfold tryLoadSharp
    rw [h1]
  have hload : ∀ st, tryLoadSharpSearch imgRoot st = none →
      tryLoadSharp imgRoot st env.requireOk = .ok .notLoaded := by
    intro st hst
    unfold tryLoadSharp
    rw [hst]
  unfold start
  rw [hl, if_neg (by simp [h2])]
  cases hp : env.build.imgProduced with
  | none =>
    have hc : compileSharpAndMove env.build env.imgState0 = .ok env.imgState0 := by
      unfold compileSharpAndMove
      rw [h3, hp]
      simp [h4]
    rw [hc]
    simp [hl]
  | some t =>
    cases hr : env.build.renameFails with
    | true =>
      have hc : compileSharpAndMove env.build env.imgState0 = .ok env.imgState0 := by
        unfold compileSharpAndMove
        rw [h3, hp]
        simp [h4, hr]
      rw [hc]
      simp [hl]
    | false =>
      have hc : compileSharpAndMove env.build env.imgState0 = .ok (.ok t) := by
        unfold compileSharpAndMove
        rw [h3, hp]
        simp [h4, hr]
      have hfind : tryLoadSharpSearch imgRoot (.ok t) = none := by
        unfold tryLoadSharpSearch
        exact h5 t hp
      rw [hc]
      simp [hload (.ok t) hfind]

/-- Witness for C10 at the silent-build environment. -/
theorem c10_silent_unusable_success_witness :
    (start envSilentBuild).outcome = .ok () ∧ (start envSilentBuild).sharp = .notLoaded :=
  c10_silent_unusable_success envSilentBuild rfl rfl rfl rfl
    (fun t ht => by cases ht)

end QhzySharp
